import Mathlib

/-!
Shallow embedding of the microwave-oven control core from
`Final_Project SDEV220/microwave_systems.py` (class `MicrowaveEngine` and the
status display logic of `UserInterface.update_status`), together with theorems
settling the specification claims about it.

Modelling conventions:
* Python integers become `Int`; Python float arithmetic in
  `calculate_defrost_time` and the simulated sensor readings are modelled as
  exact rational arithmetic (`ℚ`).
* The timer thread body (`MicrowaveEngine._cooking_timer`) is modelled in two
  granularities: `cooking_timer_step` is one loop iteration together with the
  immediately following loop-condition re-check (the sequential, atomic view
  used by the trace model `run`), and the `TStep` relation further below keeps
  the iteration and the re-check as separate atomic actions and tracks every
  spawned thread, for the concurrency claims.
* The pseudo-random sensor sample `np.random.uniform(20, 100)` becomes an
  explicit parameter `r : ℚ`; where a claim depends on its range, the bound
  `20 ≤ r ∧ r ≤ 100` is carried as a hypothesis.
-/

namespace Microwave

/-- Power levels, from the `PowerLevel` enum of the source. -/
inductive PowerLevel
| LOW
| MEDIUM
| HIGH
deriving DecidableEq, Repr

/-- Numeric value of a power level, from the enum values 30, 60, 100. -/
def PowerLevel.value : PowerLevel → Int
| .LOW => 30
| .MEDIUM => 60
| .HIGH => 100

/-- Cooking stages, from the `CookingStage` enum of the source. -/
inductive CookingStage
| DEFROST
| COOK
| WARM
| REHEAT
deriving DecidableEq, Repr

/-- String value of a cooking stage, from the enum values of the source. -/
def CookingStage.value : CookingStage → String
| .DEFROST => "defrost"
| .COOK => "cook"
| .WARM => "warm"
| .REHEAT => "reheat"

/-- One entry of `cooking_history`: the dict appended by
`MicrowaveEngine.start_cooking` (keys `start_time`, `duration`, `power`,
`stage`). -/
structure Session where
  start_time : String
  duration : Int
  power : Int
  stage : String
deriving DecidableEq, Repr

/-- The mutable state of `MicrowaveEngine` (fields set in `__init__`; the
`timer_thread` handle is modelled separately by the threaded model below,
and the immutable `defrost_table` and `power_settings` are standalone
definitions). -/
structure MicrowaveEngine where
  is_running : Bool
  remaining_time : Int
  current_power : Int
  current_stage : Option CookingStage
  sensor_data : List ℚ
  cooking_history : List Session
deriving DecidableEq, Repr

/-- The state built by `MicrowaveEngine.__init__`: not running, zero
remaining time, power 100 (`PowerLevel.HIGH.value`), no stage, the sensor
array `np.zeros(10)`, and an empty history. -/
def MicrowaveEngine.init : MicrowaveEngine :=
  { is_running := false
    remaining_time := 0
    current_power := PowerLevel.HIGH.value
    current_stage := none
    sensor_data := List.replicate 10 0
    cooking_history := [] }

/-- The `defrost_table` dict literal of `__init__`, as an association list
keyed by food type and then thickness. -/
def defrost_table : List (String × List (String × Int)) :=
  [("chicken", [("thin", 3), ("thick", 6)]),
   ("beef", [("thin", 4), ("thick", 8)]),
   ("fish", [("thin", 2), ("thick", 4)]),
   ("vegetables", [("thin", 2), ("thick", 3)])]

/-- Truncation of a rational toward zero, modelling the Python `int(...)`
conversion applied to a float. -/
def int_of (q : ℚ) : Int :=
  if q < 0 then -⌊-q⌋ else ⌊q⌋

/-- `MicrowaveEngine.calculate_defrost_time`: base minutes looked up first by
food type (defaulting to an empty inner table) and then by thickness
(defaulting to 3), scaled by `weight_grams / 500`, converted to seconds and
truncated to an integer by `int(...)`.  Python float arithmetic is modelled
as exact rational arithmetic. -/
def calculate_defrost_time (food_type thickness : String) (weight_grams : ℚ) : Int :=
  let base_time : Int := (((defrost_table.lookup food_type).getD []).lookup thickness).getD 3
  int_of ((base_time : ℚ) * (weight_grams / 500) * 60)

/-- Modelled from the claim wording, for comparison with
`calculate_defrost_time`: the formula `round(baseMinutes * weightGrams / 500)
* 60` that the specification states for the defrost calculation (rounding the
scaled minutes to an integer first, then converting to seconds). -/
def calculate_defrost_claimed (food_type thickness : String) (weight_grams : ℚ) : Int :=
  let base_time : Int := (((defrost_table.lookup food_type).getD []).lookup thickness).getD 3
  (round ((base_time : ℚ) * weight_grams / 500)) * 60

/-- `MicrowaveEngine.start_cooking`: returns the new engine state together
with the Boolean result of the call.  If already running, it does nothing and
returns `False`; if paused (`remaining_time > 0`), it only sets the running
flag (a resume, ignoring all arguments); otherwise it installs the new
session parameters and appends a history record.  Thread spawning is modelled
separately by the threaded model. -/
def start_cooking (s : MicrowaveEngine) (time_seconds power_level : Int)
    (stage : CookingStage) (now : String) : MicrowaveEngine × Bool :=
  if s.is_running then
    (s, false)
  else if s.remaining_time > 0 then
    ({ s with is_running := true }, true)
  else
    ({ s with
        is_running := true
        remaining_time := time_seconds
        current_power := power_level
        current_stage := some stage
        cooking_history := s.cooking_history ++
          [{ start_time := now, duration := time_seconds,
             power := power_level, stage := stage.value }] }, true)

/-- One iteration of the loop in `MicrowaveEngine._cooking_timer`, together
with the loop-condition re-check that immediately follows it: if the loop
condition `remaining_time > 0 and is_running` holds, decrement the remaining
time, shift the sensor window (`np.roll(..., -1)` followed by overwriting the
last slot) appending the fresh reading `r`, and clear the running flag
exactly when the re-checked loop condition now fails. -/
def cooking_timer_step (s : MicrowaveEngine) (r : ℚ) : MicrowaveEngine :=
  if s.remaining_time > 0 ∧ s.is_running then
    { s with
        remaining_time := s.remaining_time - 1
        sensor_data := s.sensor_data.tail ++ [r]
        is_running := decide (s.remaining_time - 1 > 0) }
  else s

/-- `MicrowaveEngine.stop_cooking`. -/
def stop_cooking (s : MicrowaveEngine) : MicrowaveEngine :=
  { s with is_running := false, remaining_time := 0 }

/-- `MicrowaveEngine.pause_cooking`. -/
def pause_cooking (s : MicrowaveEngine) : MicrowaveEngine :=
  { s with is_running := false }

/-- `MicrowaveEngine.resume_cooking` (its effect on the engine fields; the
thread it spawns is modelled by the threaded model). -/
def resume_cooking (s : MicrowaveEngine) : MicrowaveEngine :=
  if s.remaining_time > 0 then { s with is_running := true } else s

/-- The dict returned by `MicrowaveEngine.get_status`. -/
structure StatusSnapshot where
  running : Bool
  remaining_time : Int
  current_power : Int
  current_stage : Option String
  sensor_reading : ℚ
deriving DecidableEq, Repr

/-- `MicrowaveEngine.get_status`: the sensor reading is the last entry of the
sensor window when the window is non-empty, else 0. -/
def get_status (s : MicrowaveEngine) : StatusSnapshot :=
  { running := s.is_running
    remaining_time := s.remaining_time
    current_power := s.current_power
    current_stage := s.current_stage.map CookingStage.value
    sensor_reading := (s.sensor_data.getLast?).getD 0 }

/-- The abstract session status of the specification. -/
inductive SessionStatus
| Idle
| Running
| Paused
| Completed
deriving DecidableEq, Repr

/-- Status abstraction of an engine state, mirroring the display logic of
`UserInterface.update_status`: COOKING (Running) while the running flag is
set, READY (Idle) when stopped with zero remaining time, PAUSED otherwise.
The code never exhibits the specification state `Completed` as a distinct
observable value: on natural completion the engine goes directly to the
not-running, zero-remaining state displayed as READY. -/
def displayStatus (s : MicrowaveEngine) : SessionStatus :=
  if s.is_running then SessionStatus.Running
  else if s.remaining_time = 0 then SessionStatus.Idle
  else SessionStatus.Paused

/-- Labels for the atomic operations of the trace model. -/
inductive Op
| start (t p : Int) (st : CookingStage) (now : String)
| stop
| pause
| resume
| tick (r : ℚ)

/-- Apply one operation to an engine state. -/
def applyOp (s : MicrowaveEngine) : Op → MicrowaveEngine
| .start t p st now => (start_cooking s t p st now).1
| .stop => stop_cooking s
| .pause => pause_cooking s
| .resume => resume_cooking s
| .tick r => cooking_timer_step s r

/-- Run a list of operations from a state. -/
def run (s : MicrowaveEngine) (ops : List Op) : MicrowaveEngine :=
  ops.foldl applyOp s

/-- A state is reachable when some operation sequence produces it from the
initial state. -/
def Reachable (s : MicrowaveEngine) : Prop :=
  ∃ ops : List Op, run MicrowaveEngine.init ops = s

/-- An operation label carries a positive duration: true for every operation
except a `start` with non-positive requested duration. -/
def posDuration : Op → Bool
| .start t _ _ _ => decide (0 < t)
| _ => true

/-- Iterate the timer step over a list of sensor readings. -/
def ticks (s : MicrowaveEngine) (rs : List ℚ) : MicrowaveEngine :=
  rs.foldl cooking_timer_step s

/-- Condition under which `start_cooking` takes its fresh-session branch on
operation `op`: the operation is a `start`, the engine is not running, and no
paused time remains. -/
def freshStart (s : MicrowaveEngine) : Op → Bool
| Op.start _ _ _ _ => !s.is_running && decide (s.remaining_time ≤ 0)
| _ => false

/-- The history records appended while running an operation sequence: one
record per `start` executed in a fresh (not running, no time remaining)
state, in execution order. -/
def freshRecords : MicrowaveEngine → List Op → List Session
| _, [] => []
| s, Op.start t p st now :: rest =>
    (if freshStart s (Op.start t p st now) then
      [{ start_time := now, duration := t, power := p, stage := st.value }]
    else []) ++ freshRecords (applyOp s (Op.start t p st now)) rest
| s, op :: rest => freshRecords (applyOp s op) rest

/-- The number of `start` operations of a sequence that execute in a fresh
state (the successful starts from the Idle or Completed status). -/
def countFreshStarts : MicrowaveEngine → List Op → Nat
| _, [] => 0
| s, op :: rest => (if freshStart s op then 1 else 0) + countFreshStarts (applyOp s op) rest

/-- Program counter of one spawned timer thread running
`MicrowaveEngine._cooking_timer`: about to test the loop condition, asleep
inside the loop body, or terminated. -/
inductive TPC
| check
| sleeping
| done
deriving DecidableEq, Repr

/-- A thread counts as live until it terminates. -/
def TPC.isLive : TPC → Bool
| TPC.done => false
| _ => true

/-- The engine state together with every timer thread ever spawned on it.
The Python object keeps only the newest handle in `timer_thread`, but older
threads keep running, so the model tracks them all. -/
structure TState where
  engine : MicrowaveEngine
  threads : List TPC
deriving DecidableEq, Repr

/-- Number of live (not yet terminated) timer threads. -/
def liveCount (ts : TState) : Nat :=
  ts.threads.countP (fun pc => TPC.isLive pc)

/-- Fine-grained interleaving semantics: the main-thread operations, plus the
individual atomic actions of each spawned timer thread.  `start` spawns a new
thread whenever the engine was not already running (both the resume branch
and the fresh branch call `threading.Thread(...).start()`); `resume_cooking`
spawns whenever time remains; `pause_cooking` and `stop_cooking` only write
flags and never join a thread.  A thread at its loop check either enters the
body (moving to `sleeping`) or exits, clearing the running flag; a sleeping
thread wakes, decrements the remaining time and shifts the sensor window,
then returns to the loop check. -/
inductive TStep : TState → TState → Prop
| start (ts : TState) (t p : Int) (st : CookingStage) (now : String) :
    TStep ts ⟨(start_cooking ts.engine t p st now).1,
      if ts.engine.is_running then ts.threads else ts.threads ++ [TPC.check]⟩
| stop (ts : TState) : TStep ts ⟨stop_cooking ts.engine, ts.threads⟩
| pause (ts : TState) : TStep ts ⟨pause_cooking ts.engine, ts.threads⟩
| resume (ts : TState) :
    TStep ts ⟨resume_cooking ts.engine,
      if ts.engine.remaining_time > 0 then ts.threads ++ [TPC.check] else ts.threads⟩
| tcheck_go (ts : TState) (i : Nat) (h : ts.threads[i]? = some TPC.check)
    (hg : ts.engine.remaining_time > 0 ∧ ts.engine.is_running = true) :
    TStep ts ⟨ts.engine, ts.threads.set i TPC.sleeping⟩
| tcheck_exit (ts : TState) (i : Nat) (h : ts.threads[i]? = some TPC.check)
    (hg : ¬(ts.engine.remaining_time > 0 ∧ ts.engine.is_running = true)) :
    TStep ts ⟨{ ts.engine with is_running := false }, ts.threads.set i TPC.done⟩
| twake (ts : TState) (i : Nat) (r : ℚ) (h : ts.threads[i]? = some TPC.sleeping)
    (hr : 20 ≤ r ∧ r ≤ 100) :
    TStep ts ⟨{ ts.engine with
        remaining_time := ts.engine.remaining_time - 1,
        sensor_data := ts.engine.sensor_data.tail ++ [r] },
      ts.threads.set i TPC.check⟩

/-- Thread-aware reachability from the freshly constructed engine with no
spawned threads. -/
def TReachable (ts : TState) : Prop :=
  Relation.ReflTransGen TStep ⟨MicrowaveEngine.init, []⟩ ts

/-- The engine state reached by starting a 5-second cook session on a fresh
engine. -/
def liveEngine : MicrowaveEngine :=
  { is_running := true
    remaining_time := 5
    current_power := 100
    current_stage := some CookingStage.COOK
    sensor_data := List.replicate 10 0
    cooking_history := [{ start_time := "t0", duration := 5, power := 100, stage := "cook" }] }

/-- A reachable thread-aware state with two live timer threads: the first
thread asleep in its loop body, the second freshly spawned by a resume. -/
def twoThreadsState : TState :=
  ⟨liveEngine, [TPC.sleeping, TPC.check]⟩

/-- A paused engine with one thread still asleep in its loop body, as left
behind by a pause issued while the thread slept. -/
def pausedTS : TState :=
  ⟨{ is_running := false
     remaining_time := 5
     current_power := 100
     current_stage := some CookingStage.COOK
     sensor_data := List.replicate 10 0
     cooking_history := [] }, [TPC.sleeping]⟩

/-- The engine state obtained by issuing a zero-duration start on a fresh
engine. -/
def zeroStartState : MicrowaveEngine :=
  run MicrowaveEngine.init [Op.start 0 100 CookingStage.COOK "t0"]

/-- A concrete running engine state, used to instantiate theorems about
calls made while cooking runs. -/
def sampleRunning : MicrowaveEngine :=
  { is_running := true
    remaining_time := 7
    current_power := 60
    current_stage := some CookingStage.WARM
    sensor_data := List.replicate 10 0
    cooking_history := [] }

/-- A concrete paused engine state (not running, time remaining), used to
instantiate theorems about calls made while paused. -/
def samplePaused : MicrowaveEngine :=
  { is_running := false
    remaining_time := 5
    current_power := 30
    current_stage := some CookingStage.REHEAT
    sensor_data := List.replicate 10 0
    cooking_history := [] }

/-- Fifteen concrete sensor readings inside the simulated range. -/
def sampleReadings : List ℚ :=
  [20, 21, 22, 23, 24, 25, 26, 27, 28, 29, 30, 31, 32, 33, 34]

/-- Auxiliary: running the timer for a list of readings from a running state
with enough remaining time decrements the remaining time once per reading,
keeps the running flag exactly while time remains, slides the readings into
the sensor window, and leaves power, stage and history untouched. -/
theorem ticks_spec : ∀ (rs : List ℚ) (s : MicrowaveEngine),
    s.is_running = true → 0 < s.remaining_time → s.sensor_data ≠ [] →
    (rs.length : Int) ≤ s.remaining_time →
    (ticks s rs).remaining_time = s.remaining_time - rs.length ∧
    (ticks s rs).is_running = decide ((rs.length : Int) < s.remaining_time) ∧
    (ticks s rs).sensor_data = (s.sensor_data ++ rs).drop rs.length ∧
    (ticks s rs).current_power = s.current_power ∧
    (ticks s rs).current_stage = s.current_stage ∧
    (ticks s rs).cooking_history = s.cooking_history := by
  intro rs
  induction rs with
  | nil =>
    intro s hrun hpos _ _
    simp [ticks, hrun, hpos]
  | cons r rest ih =>
    intro s hrun hpos hsd hlen
    have hstep : ticks s (r :: rest) = ticks (cooking_timer_step s r) rest := rfl
    have hcs : cooking_timer_step s r =
        { s with
            remaining_time := s.remaining_time - 1,
            sensor_data := s.sensor_data.tail ++ [r],
            is_running := decide (s.remaining_time - 1 > 0) } := by
      simp [cooking_timer_step, hrun, hpos]
    have htail : s.sensor_data.tail ++ [r] = (s.sensor_data ++ [r]).drop 1 := by
      rw [List.drop_append_of_le_length (by simpa using List.length_pos.mpr hsd),
          List.drop_one]
    cases rest with
    | nil =>
      rw [hstep, hcs]
      refine ⟨by simp [ticks], ?_, ?_, by simp [ticks], by simp [ticks], by simp [ticks]⟩
      · show decide (s.remaining_time - 1 > 0) = _
        exact decide_eq_decide.mpr
          (by simp only [List.length_cons, List.length_nil]; push_cast; omega)
      · show s.sensor_data.tail ++ [r] = _
        simpa using htail
    | cons r2 rest2 =>
      simp only [List.length_cons] at hlen
      push_cast at hlen
      have hcall := ih
        ({ s with
            remaining_time := s.remaining_time - 1,
            sensor_data := s.sensor_data.tail ++ [r],
            is_running := decide (s.remaining_time - 1 > 0) })
        (by show decide (s.remaining_time - 1 > 0) = true
            simp only [decide_eq_true_eq]; omega)
        (by show (0:Int) < s.remaining_time - 1; omega)
        (by show s.sensor_data.tail ++ [r] ≠ []; simp)
        (by show ((r2 :: rest2).length : Int) ≤ s.remaining_time - 1
            simp only [List.length_cons]; push_cast; omega)
      obtain ⟨h1, h2, h3, h4, h5, h6⟩ := hcall
      rw [hstep, hcs]
      refine ⟨?_, ?_, ?_, ?_, ?_, ?_⟩
      · rw [h1]
        show s.remaining_time - 1 - ((r2 :: rest2).length : Int) = _
        simp only [List.length_cons]; push_cast; ring
      · rw [h2]
        apply decide_eq_decide.mpr
        show ((r2 :: rest2).length : Int) < s.remaining_time - 1 ↔ _
        simp only [List.length_cons]; push_cast; omega
      · rw [h3]
        show List.drop (r2 :: rest2).length ((s.sensor_data.tail ++ [r]) ++ (r2 :: rest2)) = _
        rw [htail,
            show ((s.sensor_data ++ [r]).drop 1) ++ (r2 :: rest2) =
                ((s.sensor_data ++ [r]) ++ (r2 :: rest2)).drop 1 from
              (List.drop_append_of_le_length (by simp)).symm,
            List.drop_drop]
        simp only [List.append_assoc, List.singleton_append, List.length_cons]
        congr 1
        omega
      · exact h4
      · exact h5
      · exact h6

/-- C10: in the initial state, the status snapshot shows not running, zero
remaining time, power 100, no stage and sensor reading 0; the sensor window
is pre-filled with ten zero readings; the displayed status is Idle. -/
theorem c10_initial_status :
    get_status MicrowaveEngine.init =
      { running := false, remaining_time := 0, current_power := 100,
        current_stage := none, sensor_reading := 0 } ∧
    MicrowaveEngine.init.sensor_data = List.replicate 10 0 ∧
    displayStatus MicrowaveEngine.init = SessionStatus.Idle := by
  refine ⟨by decide, by decide, by decide⟩

/-- C7: starting while already running returns the failure result and leaves
the entire engine state unchanged. -/
theorem c7_start_while_running_rejected (s : MicrowaveEngine) (t p : Int)
    (st : CookingStage) (now : String) (h : s.is_running = true) :
    start_cooking s t p st now = (s, false) := by
  simp [start_cooking, h]

/-- Witness for C7 at a concrete running engine state. -/
theorem c7_start_while_running_rejected_witness :
    start_cooking sampleRunning 99 30 CookingStage.COOK "w" = (sampleRunning, false) :=
  c7_start_while_running_rejected sampleRunning 99 30 CookingStage.COOK "w" (by decide)

/-- C6: starting while paused (not running, positive remaining time) acts as
a resume: it returns success, only sets the running flag, and leaves the
remaining time, power, stage and history untouched, ignoring the new
arguments. -/
theorem c6_start_while_paused_resumes (s : MicrowaveEngine) (t p : Int)
    (st : CookingStage) (now : String) (hrun : s.is_running = false)
    (hrem : 0 < s.remaining_time) :
    (start_cooking s t p st now).2 = true ∧
    (start_cooking s t p st now).1 = { s with is_running := true } := by
  simp [start_cooking, hrun, hrem]

/-- Witness for C6 at a concrete paused engine state. -/
theorem c6_start_while_paused_resumes_witness :
    (start_cooking samplePaused 42 100 CookingStage.COOK "n").2 = true ∧
    (start_cooking samplePaused 42 100 CookingStage.COOK "n").1 =
      { samplePaused with is_running := true } :=
  c6_start_while_paused_resumes samplePaused 42 100 CookingStage.COOK "n"
    (by decide) (by decide)

/-- C3 counterexample: at 625 grams of thin chicken the code truncates the
full product (225 seconds) while the claimed formula first rounds the scaled
minutes (240 seconds), so the claimed formula does not describe the code. -/
theorem c3_rounding_counterexample :
    calculate_defrost_time "chicken" "thin" 625 = 225 ∧
    calculate_defrost_claimed "chicken" "thin" 625 = 240 ∧
    calculate_defrost_time "chicken" "thin" 625 ≠
      calculate_defrost_claimed "chicken" "thin" 625 := by
  refine ⟨?_, ?_, ?_⟩ <;>
    norm_num [calculate_defrost_time, calculate_defrost_claimed, int_of,
      defrost_table, List.lookup, round_eq]

/-- C3 amended: the calculation is total, falls back to a 3-minute base when
the food type is absent from the table, and returns the truncation of
baseMinutes times weightGrams over 500 times 60 (no rounding to whole
minutes); the two claimed example values hold, and 625 grams of thin chicken
gives 225 seconds. -/
theorem c3_defrost_truncated (food thickness : String) (w : ℚ)
    (habsent : defrost_table.lookup food = none) :
    calculate_defrost_time food thickness w = int_of (3 * (w / 500) * 60) ∧
    calculate_defrost_time "chicken" "thin" 500 = 180 ∧
    calculate_defrost_time "chicken" "thin" 1000 = 360 ∧
    calculate_defrost_time "chicken" "thin" 625 = 225 := by
  refine ⟨?_, ?_, ?_, ?_⟩
  · simp [calculate_defrost_time, habsent]
  all_goals
    norm_num [calculate_defrost_time, int_of, defrost_table, List.lookup]

/-- Witness for C3 at an unknown food type and concrete weights. -/
theorem c3_defrost_truncated_witness :
    calculate_defrost_time "tofu" "thin" 500 = int_of (3 * ((500 : ℚ) / 500) * 60) ∧
    calculate_defrost_time "chicken" "thin" 500 = 180 ∧
    calculate_defrost_time "chicken" "thin" 1000 = 360 ∧
    calculate_defrost_time "chicken" "thin" 625 = 225 :=
  c3_defrost_truncated "tofu" "thin" 500 (by decide)

/-- C2 counterexample: a zero-duration start from the initial (Idle) state
does not fail: it returns success and changes the engine state. -/
theorem c2_zero_duration_accepted :
    (start_cooking MicrowaveEngine.init 0 100 CookingStage.COOK "t0").2 = true ∧
    (start_cooking MicrowaveEngine.init 0 100 CookingStage.COOK "t0").1 ≠
      MicrowaveEngine.init := by
  exact ⟨by decide, by decide⟩

/-- C2 amended: a start with non-positive duration from the Idle status is
not rejected: it returns success, installs the non-positive remaining time,
power and stage, sets the running flag, and appends a history record. -/
theorem c2_nonpositive_start_succeeds (s : MicrowaveEngine) (t p : Int)
    (st : CookingStage) (now : String)
    (hidle : displayStatus s = SessionStatus.Idle) (ht : t ≤ 0) :
    (start_cooking s t p st now).2 = true ∧
    (start_cooking s t p st now).1 =
      { s with
          is_running := true
          remaining_time := t
          current_power := p
          current_stage := some st
          cooking_history := s.cooking_history ++
            [{ start_time := now, duration := t, power := p, stage := st.value }] } := by
  have hrun : s.is_running = false := by
    by_contra hr
    simp only [Bool.not_eq_false] at hr
    simp [displayStatus, hr] at hidle
  have hrem : s.remaining_time = 0 := by
    by_contra hz
    simp [displayStatus, hrun, hz] at hidle
  simp [start_cooking, hrun, hrem]

/-- Witness for C2 at the initial state with a zero duration. -/
theorem c2_nonpositive_start_succeeds_witness :
    (start_cooking MicrowaveEngine.init 0 100 CookingStage.COOK "t0").2 = true ∧
    (start_cooking MicrowaveEngine.init 0 100 CookingStage.COOK "t0").1 =
      { MicrowaveEngine.init with
          is_running := true
          remaining_time := 0
          current_power := 100
          current_stage := some CookingStage.COOK
          cooking_history := MicrowaveEngine.init.cooking_history ++
            [{ start_time := "t0", duration := 0, power := 100,
               stage := CookingStage.COOK.value }] } :=
  c2_nonpositive_start_succeeds MicrowaveEngine.init 0 100 CookingStage.COOK "t0"
    (by decide) (by decide)

/-- C1 counterexample: after a zero-duration start the engine is in a
reachable state that is Running with zero remaining time, violating the
claimed invariant. -/
theorem c1_zero_duration_counterexample :
    Reachable zeroStartState ∧ zeroStartState.remaining_time = 0 ∧
    displayStatus zeroStartState = SessionStatus.Running := by
  exact ⟨⟨[Op.start 0 100 CookingStage.COOK "t0"], rfl⟩, by decide, by decide⟩

/-- Auxiliary: a not-running engine with zero remaining time displays Idle. -/
theorem displayStatus_eq_idle (s : MicrowaveEngine)
    (h1 : s.is_running = false) (h2 : s.remaining_time = 0) :
    displayStatus s = SessionStatus.Idle := by
  simp [displayStatus, h1, h2]

/-- Auxiliary: every operation with a positive requested duration preserves
the invariant that remaining time is non-negative and that zero remaining
time implies the running flag is clear. -/
theorem applyOp_preserves_inv (s : MicrowaveEngine) (op : Op)
    (hop : posDuration op = true)
    (h1 : 0 ≤ s.remaining_time) (h2 : s.remaining_time = 0 → s.is_running = false) :
    0 ≤ (applyOp s op).remaining_time ∧
    ((applyOp s op).remaining_time = 0 → (applyOp s op).is_running = false) := by
  cases op with
  | start t p st now =>
    simp only [posDuration, decide_eq_true_eq] at hop
    by_cases hr : s.is_running
    · have happ : applyOp s (Op.start t p st now) = s := by
        simp [applyOp, start_cooking, hr]
      rw [happ]
      exact ⟨h1, h2⟩
    · by_cases hq : s.remaining_time > 0
      · have happ : applyOp s (Op.start t p st now) = { s with is_running := true } := by
          simp [applyOp, start_cooking, hr, hq]
        rw [happ]
        refine ⟨h1, fun h0 => ?_⟩
        exfalso
        have h0q : s.remaining_time = 0 := h0
        omega
      · have happ : applyOp s (Op.start t p st now) =
            { s with
                is_running := true
                remaining_time := t
                current_power := p
                current_stage := some st
                cooking_history := s.cooking_history ++
                  [{ start_time := now, duration := t, power := p, stage := st.value }] } := by
          simp [applyOp, start_cooking, hr, hq]
        rw [happ]
        refine ⟨by show (0 : Int) ≤ t; omega, fun h0 => ?_⟩
        exfalso
        have h0q : t = 0 := h0
        omega
  | stop =>
    exact ⟨le_refl 0, fun _ => rfl⟩
  | pause =>
    exact ⟨h1, fun _ => rfl⟩
  | resume =>
    by_cases hq : s.remaining_time > 0
    · have happ : applyOp s Op.resume = { s with is_running := true } := by
        simp [applyOp, resume_cooking, hq]
      rw [happ]
      refine ⟨h1, fun h0 => ?_⟩
      exfalso
      have h0q : s.remaining_time = 0 := h0
      omega
    · have happ : applyOp s Op.resume = s := by
        simp [applyOp, resume_cooking, hq]
      rw [happ]
      exact ⟨h1, h2⟩
  | tick r =>
    by_cases hg : s.remaining_time > 0 ∧ s.is_running = true
    · have happ : applyOp s (Op.tick r) =
          { s with
              remaining_time := s.remaining_time - 1
              sensor_data := s.sensor_data.tail ++ [r]
              is_running := decide (s.remaining_time - 1 > 0) } := by
        simp [applyOp, cooking_timer_step, hg]
      rw [happ]
      refine ⟨by show (0 : Int) ≤ s.remaining_time - 1; omega, fun h0 => ?_⟩
      have h0' : s.remaining_time - 1 = 0 := h0
      show decide (s.remaining_time - 1 > 0) = false
      rw [h0']
      rfl
    · have happ : applyOp s (Op.tick r) = s := by
        simp only [applyOp, cooking_timer_step, if_neg hg]
      rw [happ]
      exact ⟨h1, h2⟩

/-- Auxiliary: the invariant of `applyOp_preserves_inv` is preserved by whole
operation sequences with positive start durations. -/
theorem run_preserves_inv (ops : List Op) : ∀ s : MicrowaveEngine,
    (∀ op ∈ ops, posDuration op = true) →
    0 ≤ s.remaining_time → (s.remaining_time = 0 → s.is_running = false) →
    0 ≤ (run s ops).remaining_time ∧
    ((run s ops).remaining_time = 0 → (run s ops).is_running = false) := by
  induction ops with
  | nil => intro s _ h1 h2; exact ⟨h1, h2⟩
  | cons op rest ih =>
    intro s hops h1 h2
    have h := applyOp_preserves_inv s op (hops op (List.mem_cons_self op rest)) h1 h2
    exact ih (applyOp s op) (fun o ho => hops o (List.mem_cons_of_mem op ho)) h.1 h.2

/-- C1 amended: for every state reached from the initial state by operations
whose start durations are all positive, zero remaining time implies the
displayed status is Idle or Completed (never Running or Paused). -/
theorem c1_invariant_positive_starts (ops : List Op)
    (hpos : ∀ op ∈ ops, posDuration op = true)
    (hzero : (run MicrowaveEngine.init ops).remaining_time = 0) :
    displayStatus (run MicrowaveEngine.init ops) = SessionStatus.Idle ∨
    displayStatus (run MicrowaveEngine.init ops) = SessionStatus.Completed := by
  have h := run_preserves_inv ops MicrowaveEngine.init hpos (by decide) (by decide)
  exact Or.inl (displayStatus_eq_idle _ (h.2 hzero) hzero)

/-- Witness for C1 on a one-second session run to completion. -/
theorem c1_invariant_positive_starts_witness :
    displayStatus (run MicrowaveEngine.init
      [Op.start 1 100 CookingStage.COOK "a", Op.tick 30]) = SessionStatus.Idle ∨
    displayStatus (run MicrowaveEngine.init
      [Op.start 1 100 CookingStage.COOK "a", Op.tick 30]) = SessionStatus.Completed :=
  c1_invariant_positive_starts [Op.start 1 100 CookingStage.COOK "a", Op.tick 30]
    (by decide) (by decide)

/-- C4: a start with positive duration d from the initial state immediately
yields a running engine with remaining time d; each of the first d timer
ticks decrements the remaining time by exactly one and keeps it non-negative;
and after exactly d ticks the engine has zero remaining time and displays the
Idle status of the Idle-or-Completed class (the code folds the transient
Completed state directly into Idle). -/
theorem c4_start_then_ticks (d p : Int) (st : CookingStage) (now : String)
    (hd : 0 < d) (rs : List ℚ) (hlen : (rs.length : Int) ≤ d) :
    (start_cooking MicrowaveEngine.init d p st now).1.is_running = true ∧
    (start_cooking MicrowaveEngine.init d p st now).1.remaining_time = d ∧
    (ticks (start_cooking MicrowaveEngine.init d p st now).1 rs).remaining_time
        = d - rs.length ∧
    (ticks (start_cooking MicrowaveEngine.init d p st now).1 rs).is_running
        = decide ((rs.length : Int) < d) ∧
    ((rs.length : Int) = d →
      (ticks (start_cooking MicrowaveEngine.init d p st now).1 rs).remaining_time = 0 ∧
      displayStatus (ticks (start_cooking MicrowaveEngine.init d p st now).1 rs)
          = SessionStatus.Idle) := by
  have hs0 : (start_cooking MicrowaveEngine.init d p st now).1 =
      { is_running := true, remaining_time := d, current_power := p,
        current_stage := some st, sensor_data := List.replicate 10 0,
        cooking_history := [{ start_time := now, duration := d, power := p,
                              stage := st.value }] } := by
    simp [start_cooking, MicrowaveEngine.init]
  rw [hs0]
  obtain ⟨h1, h2, h3, h4, h5, h6⟩ :=
    ticks_spec rs
      { is_running := true, remaining_time := d, current_power := p,
        current_stage := some st, sensor_data := List.replicate 10 0,
        cooking_history := [{ start_time := now, duration := d, power := p,
                              stage := st.value }] }
      rfl hd (by simp) hlen
  have ha : (ticks
      { is_running := true, remaining_time := d, current_power := p,
        current_stage := some st, sensor_data := List.replicate 10 0,
        cooking_history := [{ start_time := now, duration := d, power := p,
                              stage := st.value }] } rs).remaining_time
      = d - rs.length := h1
  have hb : (ticks
      { is_running := true, remaining_time := d, current_power := p,
        current_stage := some st, sensor_data := List.replicate 10 0,
        cooking_history := [{ start_time := now, duration := d, power := p,
                              stage := st.value }] } rs).is_running
      = decide ((rs.length : Int) < d) := h2
  refine ⟨rfl, rfl, ha, hb, ?_⟩
  intro heq
  have hrem0 : (ticks
      { is_running := true, remaining_time := d, current_power := p,
        current_stage := some st, sensor_data := List.replicate 10 0,
        cooking_history := [{ start_time := now, duration := d, power := p,
                              stage := st.value }] } rs).remaining_time = 0 := by
    rw [ha, heq, sub_self]
  have hrun0 : (ticks
      { is_running := true, remaining_time := d, current_power := p,
        current_stage := some st, sensor_data := List.replicate 10 0,
        cooking_history := [{ start_time := now, duration := d, power := p,
                              stage := st.value }] } rs).is_running = false := by
    rw [hb, heq]
    simp
  exact ⟨hrem0, displayStatus_eq_idle _ hrun0 hrem0⟩

/-- Witness for C4 on a two-second session with two concrete ticks. -/
theorem c4_start_then_ticks_witness :
    (start_cooking MicrowaveEngine.init 2 100 CookingStage.COOK "a").1.is_running = true ∧
    (start_cooking MicrowaveEngine.init 2 100 CookingStage.COOK "a").1.remaining_time = 2 ∧
    (ticks (start_cooking MicrowaveEngine.init 2 100 CookingStage.COOK "a").1
        [25, 75]).remaining_time = 2 - ([(25 : ℚ), 75].length : Int) ∧
    (ticks (start_cooking MicrowaveEngine.init 2 100 CookingStage.COOK "a").1
        [25, 75]).is_running = decide ((([(25 : ℚ), 75].length : Nat) : Int) < 2) ∧
    ((([(25 : ℚ), 75].length : Nat) : Int) = 2 →
      (ticks (start_cooking MicrowaveEngine.init 2 100 CookingStage.COOK "a").1
          [25, 75]).remaining_time = 0 ∧
      displayStatus (ticks (start_cooking MicrowaveEngine.init 2 100 CookingStage.COOK "a").1
          [25, 75]) = SessionStatus.Idle) :=
  c4_start_then_ticks 2 100 CookingStage.COOK "a" (by decide) [25, 75] (by decide)

/-- Auxiliary: operations that do not take the fresh-start branch leave the
cooking history untouched. -/
theorem applyOp_history_not_fresh (s : MicrowaveEngine) (op : Op)
    (h : freshStart s op = false) :
    (applyOp s op).cooking_history = s.cooking_history := by
  cases op with
  | start t p st now =>
    by_cases hr : s.is_running
    · simp [applyOp, start_cooking, hr]
    · have hq : s.remaining_time > 0 := by
        simp [freshStart, hr] at h
        omega
      simp [applyOp, start_cooking, hr, hq]
  | stop => rfl
  | pause => rfl
  | resume =>
    by_cases hq : s.remaining_time > 0 <;> simp [applyOp, resume_cooking, hq]
  | tick r =>
    by_cases hg : s.remaining_time > 0 ∧ s.is_running = true <;>
      simp [applyOp, cooking_timer_step, hg]

/-- Auxiliary: a start taken in a fresh state appends exactly one history
record built from its arguments. -/
theorem applyOp_history_fresh (s : MicrowaveEngine) (t p : Int)
    (st : CookingStage) (now : String)
    (h : freshStart s (Op.start t p st now) = true) :
    (applyOp s (Op.start t p st now)).cooking_history =
      s.cooking_history ++
        [{ start_time := now, duration := t, power := p, stage := st.value }] := by
  simp only [freshStart, Bool.and_eq_true, Bool.not_eq_true', decide_eq_true_eq] at h
  have hq : ¬(s.remaining_time > 0) := by omega
  simp [applyOp, start_cooking, h.1, hq]

/-- C8: running any operation sequence extends the history by exactly the
records of the starts executed in a fresh state, in execution order and with
no record changed or removed, and the number of appended records equals the
number of fresh (successful Idle-or-Completed) starts. -/
theorem c8_history_ledger (ops : List Op) : ∀ s : MicrowaveEngine,
    (run s ops).cooking_history = s.cooking_history ++ freshRecords s ops ∧
    (freshRecords s ops).length = countFreshStarts s ops := by
  induction ops with
  | nil => intro s; simp [run, freshRecords, countFreshStarts]
  | cons op rest ih =>
    intro s
    obtain ⟨ih1, ih2⟩ := ih (applyOp s op)
    have hrun : run s (op :: rest) = run (applyOp s op) rest := rfl
    cases op with
    | start t p st now =>
      cases hf : freshStart s (Op.start t p st now) with
      | false =>
        constructor
        · rw [hrun, ih1, applyOp_history_not_fresh s _ hf]
          simp [freshRecords, hf]
        · simp [freshRecords, countFreshStarts, hf, ih2]
      | true =>
        constructor
        · rw [hrun, ih1, applyOp_history_fresh s t p st now hf]
          simp [freshRecords, hf]
        · simp [freshRecords, countFreshStarts, hf, ih2]
          omega
    | stop =>
      refine ⟨?_, ?_⟩
      · rw [hrun, ih1, applyOp_history_not_fresh s Op.stop rfl]
        simp [freshRecords]
      · simp [freshRecords, countFreshStarts, freshStart, ih2]
    | pause =>
      refine ⟨?_, ?_⟩
      · rw [hrun, ih1, applyOp_history_not_fresh s Op.pause rfl]
        simp [freshRecords]
      · simp [freshRecords, countFreshStarts, freshStart, ih2]
    | resume =>
      refine ⟨?_, ?_⟩
      · rw [hrun, ih1, applyOp_history_not_fresh s Op.resume rfl]
        simp [freshRecords]
      · simp [freshRecords, countFreshStarts, freshStart, ih2]
    | tick r =>
      refine ⟨?_, ?_⟩
      · rw [hrun, ih1, applyOp_history_not_fresh s (Op.tick r) rfl]
        simp [freshRecords]
      · simp [freshRecords, countFreshStarts, freshStart, ih2]

/-- Auxiliary: every operation preserves the sensor window length of 10. -/
theorem applyOp_sensor_length (s : MicrowaveEngine) (op : Op)
    (h : s.sensor_data.length = 10) : (applyOp s op).sensor_data.length = 10 := by
  cases op with
  | start t p st now =>
    by_cases hr : s.is_running
    · simp [applyOp, start_cooking, hr, h]
    · by_cases hq : s.remaining_time > 0 <;>
        simp [applyOp, start_cooking, hr, hq, h]
  | stop => simpa using h
  | pause => simpa using h
  | resume =>
    by_cases hq : s.remaining_time > 0 <;> simp [applyOp, resume_cooking, hq, h]
  | tick r =>
    by_cases hg : s.remaining_time > 0 ∧ s.is_running = true
    · simp [applyOp, cooking_timer_step, hg, h]
    · simpa [applyOp, cooking_timer_step, hg] using h

/-- Auxiliary: the sensor window length of 10 is preserved by whole operation
sequences. -/
theorem run_sensor_length (ops : List Op) : ∀ s : MicrowaveEngine,
    s.sensor_data.length = 10 → (run s ops).sensor_data.length = 10 := by
  induction ops with
  | nil => intro s h; exact h
  | cons op rest ih =>
    intro s h
    exact ih (applyOp s op) (applyOp_sensor_length s op h)

/-- C9: the sensor window of every reachable state holds exactly 10 readings
(so never more than 10); after a start and 15 ticks with readings rs the
window holds exactly readings 6 through 15 of rs, the status snapshot reports
the 15th reading, and each held reading lies in the simulated range when the
supplied readings do; before any reading is produced the reported reading is
the default 0. -/
theorem c9_sensor_window (rs : List ℚ) (h15 : rs.length = 15) (d p : Int)
    (st : CookingStage) (now : String) (hd : 15 ≤ d)
    (hrange : ∀ x ∈ rs, 20 ≤ x ∧ x ≤ 100) :
    (∀ s : MicrowaveEngine, Reachable s → s.sensor_data.length = 10) ∧
    (ticks (start_cooking MicrowaveEngine.init d p st now).1 rs).sensor_data
        = rs.drop 5 ∧
    (get_status (ticks (start_cooking MicrowaveEngine.init d p st now).1 rs)).sensor_reading
        = rs.getLast?.getD 0 ∧
    (∀ x ∈ (ticks (start_cooking MicrowaveEngine.init d p st now).1 rs).sensor_data,
        20 ≤ x ∧ x ≤ 100) ∧
    (get_status MicrowaveEngine.init).sensor_reading = 0 := by
  have hs0 : (start_cooking MicrowaveEngine.init d p st now).1 =
      { is_running := true, remaining_time := d, current_power := p,
        current_stage := some st, sensor_data := List.replicate 10 0,
        cooking_history := [{ start_time := now, duration := d, power := p,
                              stage := st.value }] } := by
    simp [start_cooking, MicrowaveEngine.init]
  rw [hs0]
  obtain ⟨h1, h2, h3, h4, h5, h6⟩ :=
    ticks_spec rs
      { is_running := true, remaining_time := d, current_power := p,
        current_stage := some st, sensor_data := List.replicate 10 0,
        cooking_history := [{ start_time := now, duration := d, power := p,
                              stage := st.value }] }
      rfl (by show (0 : Int) < d; omega) (by simp)
      (by show (rs.length : Int) ≤ d; rw [h15]; exact_mod_cast hd)
  have hsensor : (ticks
      { is_running := true, remaining_time := d, current_power := p,
        current_stage := some st, sensor_data := List.replicate 10 0,
        cooking_history := [{ start_time := now, duration := d, power := p,
                              stage := st.value }] } rs).sensor_data = rs.drop 5 := by
    rw [h3]
    show (List.replicate 10 (0 : ℚ) ++ rs).drop rs.length = rs.drop 5
    rw [h15,
        show (15 : Nat) = (List.replicate 10 (0 : ℚ)).length + 5 from by simp,
        List.drop_append]
  have hdrop_ne : rs.drop 5 ≠ [] := by
    have : (rs.drop 5).length = 10 := by simp [h15]
    intro hnil
    rw [hnil] at this
    simp at this
  have hlast : (rs.drop 5).getLast? = rs.getLast? := by
    conv_rhs => rw [← List.take_append_drop 5 rs]
    rw [List.getLast?_append_of_ne_nil _ hdrop_ne]
  refine ⟨?_, hsensor, ?_, ?_, by decide⟩
  · rintro s ⟨ops, hops⟩
    exact hops ▸ run_sensor_length ops MicrowaveEngine.init (by decide)
  · show ((ticks
      { is_running := true, remaining_time := d, current_power := p,
        current_stage := some st, sensor_data := List.replicate 10 0,
        cooking_history := [{ start_time := now, duration := d, power := p,
                              stage := st.value }] } rs).sensor_data.getLast?).getD 0
      = rs.getLast?.getD 0
    rw [hsensor, hlast]
  · intro x hx
    rw [hsensor] at hx
    exact hrange x (List.drop_subset 5 rs hx)

/-- Witness for C9 with fifteen concrete in-range readings on a 15-second
session. -/
theorem c9_sensor_window_witness :
    (ticks (start_cooking MicrowaveEngine.init 15 100 CookingStage.COOK "a").1
        sampleReadings).sensor_data = sampleReadings.drop 5 ∧
    (get_status (ticks (start_cooking MicrowaveEngine.init 15 100 CookingStage.COOK "a").1
        sampleReadings)).sensor_reading = sampleReadings.getLast?.getD 0 ∧
    (get_status MicrowaveEngine.init).sensor_reading = 0 := by
  have h := c9_sensor_window sampleReadings (by decide) 15 100 CookingStage.COOK "a"
    (by decide) (by decide)
  exact ⟨h.2.1, h.2.2.1, h.2.2.2.2⟩

/-- Auxiliary: transport a thread step along an equality of target states. -/
theorem tstep_cast {a b b' : TState} (h : TStep a b) (e : b = b') : TStep a b' :=
  e ▸ h

/-- C5 counterexample: a start, the thread entering its sleep, a pause and an
immediate resume reach a state with two live timer threads on the same
session, so at most one live tick activity per controller does not hold. -/
theorem c5_two_live_threads : TReachable twoThreadsState ∧ liveCount twoThreadsState = 2 := by
  constructor
  · have h1 : TStep ⟨MicrowaveEngine.init, []⟩ ⟨liveEngine, [TPC.check]⟩ :=
      tstep_cast (TStep.start ⟨MicrowaveEngine.init, []⟩ 5 100 CookingStage.COOK "t0")
        (by decide)
    have h2 : TStep ⟨liveEngine, [TPC.check]⟩ ⟨liveEngine, [TPC.sleeping]⟩ :=
      tstep_cast (TStep.tcheck_go ⟨liveEngine, [TPC.check]⟩ 0 (by decide) (by decide))
        (by decide)
    have h3 : TStep ⟨liveEngine, [TPC.sleeping]⟩
        ⟨pause_cooking liveEngine, [TPC.sleeping]⟩ :=
      TStep.pause ⟨liveEngine, [TPC.sleeping]⟩
    have h4 : TStep ⟨pause_cooking liveEngine, [TPC.sleeping]⟩ twoThreadsState :=
      tstep_cast (TStep.resume ⟨pause_cooking liveEngine, [TPC.sleeping]⟩) (by decide)
    exact Relation.ReflTransGen.head h1 (Relation.ReflTransGen.head h2
      (Relation.ReflTransGen.head h3 (Relation.ReflTransGen.head h4
        Relation.ReflTransGen.refl)))
  · decide

/-- C5 amended: pause only clears the running flag and terminates no thread,
and resume spawns a fresh timer thread whenever time remains, without
synchronizing on the termination of any existing thread, so each resume
increases the number of live threads by one. -/
theorem c5_resume_spawns_without_join (ts : TState)
    (hrem : 0 < ts.engine.remaining_time) :
    TStep ts ⟨resume_cooking ts.engine, ts.threads ++ [TPC.check]⟩ ∧
    liveCount ⟨resume_cooking ts.engine, ts.threads ++ [TPC.check]⟩ = liveCount ts + 1 ∧
    TStep ts ⟨pause_cooking ts.engine, ts.threads⟩ ∧
    liveCount ⟨pause_cooking ts.engine, ts.threads⟩ = liveCount ts := by
  refine ⟨?_, ?_, TStep.pause ts, rfl⟩
  · exact tstep_cast (TStep.resume ts) (by rw [if_pos hrem])
  · simp [liveCount, List.countP_append, TPC.isLive]

/-- Witness for C5 at a concrete paused state with one sleeping thread. -/
theorem c5_resume_spawns_without_join_witness :
    TStep pausedTS ⟨resume_cooking pausedTS.engine, pausedTS.threads ++ [TPC.check]⟩ ∧
    liveCount ⟨resume_cooking pausedTS.engine, pausedTS.threads ++ [TPC.check]⟩
        = liveCount pausedTS + 1 ∧
    TStep pausedTS ⟨pause_cooking pausedTS.engine, pausedTS.threads⟩ ∧
    liveCount ⟨pause_cooking pausedTS.engine, pausedTS.threads⟩ = liveCount pausedTS :=
  c5_resume_spawns_without_join pausedTS (by decide)

end Microwave
